import Mathlib

/-!
Shallow embedding of `ascii_art.py` (hackjealousy/aart): the resampler, the
dither engine, the glyph mapper and the (spec-modelled) edge classifier,
together with theorems checking the specification's claims against them.

Modelling conventions: Python floats are modelled as exact rationals,
`int()` as truncation toward zero, Python string subscription (including
negative indices) and its IndexError explicitly, and the raster-order loops
of the dither engine as left folds over the row-major coordinate list.
-/

namespace AsciiArt

/-- Failure modes.  `indexError` is Python's out-of-range IndexError and
`zeroDivisionError` its division by zero; `invalidDimension` and `emptyRamp`
are the distinct errors named by the specification — no code in the source
raises them, they exist here only so that claims about them can be stated. -/
inductive PyErr where
  | indexError
  | zeroDivisionError
  | invalidDimension
  | emptyRamp
deriving DecidableEq

instance {ε α : Type} [DecidableEq ε] [DecidableEq α] : DecidableEq (Except ε α) := fun a b =>
  match a, b with
  | .ok x, .ok y =>
      if h : x = y then .isTrue (by rw [h]) else .isFalse (fun he => h (Except.ok.inj he))
  | .ok _, .error _ => .isFalse (fun he => Except.noConfusion he)
  | .error _, .ok _ => .isFalse (fun he => Except.noConfusion he)
  | .error x, .error y =>
      if h : x = y then .isTrue (by rw [h]) else .isFalse (fun he => h (Except.error.inj he))

/-- Python `int()` applied to a float: truncation toward zero. -/
def pyInt (q : ℚ) : Int := if 0 ≤ q then ⌊q⌋ else ⌈q⌉

/-- The function `resize_image` (ascii_art.py lines 15-20):
`aspect_ratio = height / width` (Python raises ZeroDivisionError when
`width = 0`), `new_height = int(aspect_ratio * new_width * 0.55)`; the
external `image.resize((new_width, new_height))` call is modelled by
returning the target size it is invoked with.  The source performs no
validation of `new_width`. -/
def resize_image (w h : Nat) (new_width : Int) : Except PyErr (Int × Int) :=
  if w = 0 then .error .zeroDivisionError
  else .ok (new_width, pyInt ((h : ℚ) / (w : ℚ) * (new_width : ℚ) * (55 / 100)))

/-- The index computation shared by `pixels_to_ascii` (line 109) and
`pixels_to_ascii_pattern` (line 132):
`min(int(value * len(ascii_chars) / 256), len(ascii_chars) - 1)`. -/
def char_index (v : ℚ) (len : Nat) : Int :=
  min (pyInt (v * (len : ℚ) / 256)) ((len : Int) - 1)

/-- Python string subscription `s[i]`: negative indices count from the end
of the string, out-of-range raises IndexError. -/
def pyStrGet (s : List Char) (i : Int) : Except PyErr Char :=
  let j : Int := if 0 ≤ i then i else (s.length : Int) + i
  if h : 0 ≤ j ∧ j < (s.length : Int) then
    .ok (s.get ⟨j.toNat, by omega⟩)
  else
    .error .indexError

/-- The function `pixels_to_ascii` (lines 103-111): map each pixel of the
flattened image through `ascii_chars[char_index]`, accumulating the
characters; the loop aborts at the first IndexError. -/
def pixels_to_ascii (pixels : List Nat) (ascii_chars : List Char) :
    Except PyErr (List Char) :=
  pixels.mapM (fun (p : Nat) =>
    pyStrGet ascii_chars (char_index (p : ℚ) ascii_chars.length))

/-- The row split of `image_to_ascii` (lines 216-218):
`ascii_str[i:i+img_width] for i in range(0, len(ascii_str), img_width)`,
i.e. one slice per multiple of `img_width` below the length (`img_width = 0`
would raise in Python and is never used here). -/
def pySlices (s : List Char) (w : Nat) : List (List Char) :=
  ((List.range s.length).filter (fun i => i % w == 0)).map
    (fun i => (s.drop i).take w)

/-- The static per-pixel rendering path of `image_to_ascii` (lines 213-218):
flatten the grid row-major (`image.getdata()`), map to characters, split
into rows of the image width `w`. -/
def render_ascii (w : Nat) (grid : List (List Nat)) (ascii_chars : List Char) :
    Except PyErr (List (List Char)) :=
  (pixels_to_ascii grid.flatten ascii_chars).map (fun s => pySlices s w)

/-- The loop index list `range(0, n, 2)` of the block loops in
`pixels_to_ascii_pattern` (lines 121-122). -/
def rangeStep2 (n : Nat) : List Nat :=
  (List.range n).filter (fun i => i % 2 == 0)

/-- The block `img_array[y:y+block_height, x:x+block_width]` of lines
123-126 (2x2, or smaller at the right/bottom edge), flattened. -/
def blockCells (grid : List (List Nat)) (y x bh bw : Nat) : List Nat :=
  (((grid.drop y).take bh).map (fun r => (r.drop x).take bw)).flatten

/-- The average brightness `np.mean(block)` of line 129. -/
def blockMean (grid : List (List Nat)) (y x bh bw : Nat) : ℚ :=
  ((blockCells grid y x bh bw).map (fun v => (v : ℚ))).sum /
    ((blockCells grid y x bh bw).length : ℚ)

/-- The function `pixels_to_ascii_pattern` (lines 114-138): one output row
per block row, one character per 2x2 block, through the average brightness
and the same index formula as the per-pixel mapper.  `width` and `height`
come from `image.size`: the row count and the (common) row length. -/
def pixels_to_ascii_pattern (grid : List (List Nat)) (ascii_chars : List Char) :
    Except PyErr (List (List Char)) :=
  (rangeStep2 grid.length).mapM (fun y =>
    (rangeStep2 (grid.headD []).length).mapM (fun x =>
      pyStrGet ascii_chars
        (char_index
          (blockMean grid y x (min 2 (grid.length - y))
            (min 2 ((grid.headD []).length - x)))
          ascii_chars.length)))

/-- The default glyph ramp of `image_to_ascii` (line 150). -/
def ascii_chars_default : List Char := " .:-=+*#%@".toList

/-- The binarization of lines 60 and 80: `255 if old_pixel > 127 else 0`. -/
def binQ (v : ℚ) : ℚ := if 127 < v then 255 else 0

/-- In-place update of the working array at coordinate `p = (y, x)`. -/
def upd (g : Nat × Nat → ℚ) (p : Nat × Nat) (v : ℚ) : Nat × Nat → ℚ :=
  fun q => if q = p then v else g q

/-- A bounds-guarded `img_array[p] += v` (the neighbor updates of lines
66-73 and 86-97). -/
def addIf (c : Prop) [Decidable c] (p : Nat × Nat) (v : ℚ)
    (g : Nat × Nat → ℚ) : Nat × Nat → ℚ :=
  if c then upd g p (g p + v) else g

/-- The quantization error `old_pixel - new_pixel` of the pixel at `p`. -/
def errQ (g : Nat × Nat → ℚ) (p : Nat × Nat) : ℚ := g p - binQ (g p)

/-- The Floyd-Steinberg error distribution (lines 66-73), innermost
application first: `error * 7 / 16` to (x+1,y), `error * 3 / 16` to
(x-1,y+1), `error * 5 / 16` to (x,y+1), `error * 1 / 16` to (x+1,y+1),
each guarded by the bounds check of the source. -/
def distFS (w h y x : Nat) (err : ℚ) (g0 : Nat × Nat → ℚ) : Nat × Nat → ℚ :=
  addIf (y + 1 < h ∧ x + 1 < w) (y + 1, x + 1) (err * 1 / 16)
    (addIf (y + 1 < h) (y + 1, x) (err * 5 / 16)
      (addIf (y + 1 < h ∧ 1 ≤ x) (y + 1, x - 1) (err * 3 / 16)
        (addIf (x + 1 < w) (y, x + 1) (err * 7 / 16) g0)))

/-- The Atkinson error distribution (lines 86-97): one equal share `err`
to each of the six in-bounds neighbors, innermost application first. -/
def distAtk (w h y x : Nat) (err : ℚ) (g0 : Nat × Nat → ℚ) : Nat × Nat → ℚ :=
  addIf (y + 2 < h) (y + 2, x) err
    (addIf (y + 1 < h ∧ x + 1 < w) (y + 1, x + 1) err
      (addIf (y + 1 < h) (y + 1, x) err
        (addIf (y + 1 < h ∧ 1 ≤ x) (y + 1, x - 1) err
          (addIf (x + 2 < w) (y, x + 2) err
            (addIf (x + 1 < w) (y, x + 1) err g0)))))

/-- One Floyd-Steinberg loop iteration (lines 58-73) at pixel `p`. -/
def fsStep (w h : Nat) (g : Nat × Nat → ℚ) (p : Nat × Nat) : Nat × Nat → ℚ :=
  distFS w h p.1 p.2 (errQ g p) (upd g p (binQ (g p)))

/-- One Atkinson loop iteration (lines 78-97) at pixel `p`; the share
passed on is `(old_pixel - new_pixel) / 8` (line 83). -/
def atkStep (w h : Nat) (g : Nat × Nat → ℚ) (p : Nat × Nat) : Nat × Nat → ℚ :=
  distAtk w h p.1 p.2 (errQ g p / 8) (upd g p (binQ (g p)))

/-- Row-major raster order of the double loop `for y ... for x ...`. -/
def raster (w h : Nat) : List (Nat × Nat) :=
  ((List.range h).map (fun y => (List.range w).map (fun x => (y, x)))).flatten

/-- Running a per-pixel step over the whole raster scan. -/
def runDither (step : Nat → Nat → (Nat × Nat → ℚ) → Nat × Nat → Nat × Nat → ℚ)
    (w h : Nat) (g0 : Nat × Nat → ℚ) : Nat × Nat → ℚ :=
  (raster w h).foldl (step w h) g0

/-- The four dithering modes of `apply_dithering` (lines 34, 38, 55, 75). -/
inductive Method where
  | none
  | ordered
  | floydSteinberg
  | atkinson

/-- The image width: the common row length of the row-major grid. -/
def gridW (grid : List (List Nat)) : Nat := (grid.headD []).length

/-- The image height: the row count of the row-major grid. -/
def gridH (grid : List (List Nat)) : Nat := grid.length

/-- The float working array `np.array(image, dtype=np.float64)` (line 31). -/
def gridFun (grid : List (List Nat)) : Nat × Nat → ℚ :=
  fun p => ((grid.getD p.1 []).getD p.2 0 : Nat)

/-- One entry of `np.clip(img_array, 0, 255)` (line 100). -/
def clip (q : ℚ) : ℚ := max 0 (min 255 q)

/-- One entry of `np.clip(...).astype(np.uint8)` (line 100): clip, then
truncate to an unsigned integer. -/
def toU8 (q : ℚ) : Nat := (pyInt (clip q)).toNat

/-- Reading the working array back into a row-major grid of the original
shape through `toU8` (line 100). -/
def outGrid (w h : Nat) (g : Nat × Nat → ℚ) : List (List Nat) :=
  (List.range h).map (fun y => (List.range w).map (fun x => toU8 (g (y, x))))

/-- The 4x4 Bayer matrix of lines 40-45; entries are scaled by
`/ 16.0 * 255` at the definition site. -/
def bayer_matrix : List (List ℚ) :=
  [[0, 8, 2, 10], [12, 4, 14, 6], [3, 11, 1, 9], [15, 7, 13, 5]]

/-- The threshold `bayer_matrix[y % 4, x % 4]` (line 50), scaled. -/
def bayerAt (y x : Nat) : ℚ :=
  ((bayer_matrix.getD (y % 4) []).getD (x % 4) 0) / 16 * 255

/-- The function `apply_dithering` (lines 28-100).  The `ordered` loop
touches each pixel exactly once and reads only the pixel it writes, so it
is expressed pointwise (`threshold - 128` added, then clamped, line 51-53);
the error-diffusion modes are the raster-order folds above.  The final
`np.clip(...).astype(np.uint8)` of line 100 is applied by `outGrid`
(`none` returns the untouched input image, line 36). -/
def apply_dithering (grid : List (List Nat)) (m : Method) : List (List Nat) :=
  match m with
  | .none => grid
  | .ordered =>
      outGrid (gridW grid) (gridH grid)
        (fun p => clip (gridFun grid p + bayerAt p.1 p.2 - 128))
  | .floydSteinberg =>
      outGrid (gridW grid) (gridH grid)
        (runDither fsStep (gridW grid) (gridH grid) (gridFun grid))
  | .atkinson =>
      outGrid (gridW grid) (gridH grid)
        (runDither atkStep (gridW grid) (gridH grid) (gridFun grid))

/-- Modelled from the spec: a bounds-checked read `EdgeMask[y, x]` of the
edge mask; cells outside the mask count as non-edges.  The repository's
source contains no edge-detection or edge-classification code — §4.3 of
the spec is the only description of the Edge Classifier. -/
def maskAt (mask : List (List Bool)) (x y : Int) : Bool :=
  if 0 ≤ y ∧ y < (mask.length : Int) then
    if 0 ≤ x ∧ x < ((mask.getD y.toNat []).length : Int) then
      (mask.getD y.toNat []).getD x.toNat false
    else false
  else false

/-- Modelled from the spec: §4.3 direction classification
(`determine_edge_direction`).  Returns `none` if the pixel is not itself
an edge; otherwise inspects the 8 neighboring mask cells (bounds-checked)
and applies the priority rules 1-8, with `'+'` as the exhaustive fallback
for an isolated edge pixel. -/
def determine_edge_direction (mask : List (List Bool)) (x y : Int) : Option Char :=
  if maskAt mask x y = false then none
  else
    let dN := maskAt mask x (y - 1)
    let dS := maskAt mask x (y + 1)
    let dE := maskAt mask (x + 1) y
    let dW := maskAt mask (x - 1) y
    let dNE := maskAt mask (x + 1) (y - 1)
    let dNW := maskAt mask (x - 1) (y - 1)
    let dSE := maskAt mask (x + 1) (y + 1)
    let dSW := maskAt mask (x - 1) (y + 1)
    if dN && dS then some '|'
    else if dE && dW then some '-'
    else if dNE && dSW then some '/'
    else if dNW && dSE then some '\\'
    else if dN || dS then some '|'
    else if dE || dW then some '-'
    else if dNE || dSW then some '/'
    else if dNW || dSE then some '\\'
    else some '+'

/-! ### Locality of the error-diffusion steps -/

lemma upd_self (g : Nat × Nat → ℚ) (p : Nat × Nat) (v : ℚ) : upd g p v p = v := by
  simp [upd]

lemma upd_ne (g : Nat × Nat → ℚ) {p q : Nat × Nat} (v : ℚ) (h : q ≠ p) :
    upd g p v q = g q := by
  simp [upd, h]

lemma addIf_ne (c : Prop) [Decidable c] {p q : Nat × Nat} (v : ℚ)
    (g : Nat × Nat → ℚ) (h : q ≠ p) : addIf c p v g q = g q := by
  unfold addIf
  split
  · exact upd_ne g _ h
  · rfl

lemma addIf_self (c : Prop) [Decidable c] (hc : c) (p : Nat × Nat) (v : ℚ)
    (g : Nat × Nat → ℚ) : addIf c p v g p = g p + v := by
  simp [addIf, if_pos hc, upd_self]

/-- The Floyd-Steinberg share of the east neighbor `(x+1, y)`. -/
lemma fsStep_e (w h y x : Nat) (g : Nat × Nat → ℚ) (hx : x + 1 < w) :
    fsStep w h g (y, x) (y, x + 1) = g (y, x + 1) + errQ g (y, x) * 7 / 16 := by
  simp only [fsStep, distFS]
  rw [addIf_ne, addIf_ne, addIf_ne, addIf_self _ hx, upd_ne] <;>
    simp only [ne_eq, Prod.mk.injEq, not_and] <;> omega

/-- The Floyd-Steinberg share of the south-west neighbor `(x-1, y+1)`. -/
lemma fsStep_sw (w h y x : Nat) (g : Nat × Nat → ℚ) (hy : y + 1 < h) (hx : 1 ≤ x) :
    fsStep w h g (y, x) (y + 1, x - 1) = g (y + 1, x - 1) + errQ g (y, x) * 3 / 16 := by
  simp only [fsStep, distFS]
  rw [addIf_ne, addIf_ne, addIf_self _ ⟨hy, hx⟩, addIf_ne, upd_ne] <;>
    simp only [ne_eq, Prod.mk.injEq, not_and] <;> omega

/-- The Floyd-Steinberg share of the south neighbor `(x, y+1)`. -/
lemma fsStep_s (w h y x : Nat) (g : Nat × Nat → ℚ) (hy : y + 1 < h) (hx : 1 ≤ x) :
    fsStep w h g (y, x) (y + 1, x) = g (y + 1, x) + errQ g (y, x) * 5 / 16 := by
  simp only [fsStep, distFS]
  rw [addIf_ne, addIf_self _ hy, addIf_ne, addIf_ne, upd_ne] <;>
    simp only [ne_eq, Prod.mk.injEq, not_and] <;> omega

/-- The Floyd-Steinberg share of the south-east neighbor `(x+1, y+1)`. -/
lemma fsStep_se (w h y x : Nat) (g : Nat × Nat → ℚ) (hy : y + 1 < h) (hx : x + 1 < w) :
    fsStep w h g (y, x) (y + 1, x + 1) = g (y + 1, x + 1) + errQ g (y, x) * 1 / 16 := by
  simp only [fsStep, distFS]
  rw [addIf_self _ ⟨hy, hx⟩, addIf_ne, addIf_ne, addIf_ne, upd_ne] <;>
    simp only [ne_eq, Prod.mk.injEq, not_and] <;> omega

/-- The Atkinson share of the east neighbor `(x+1, y)`. -/
lemma atkStep_e (w h y x : Nat) (g : Nat × Nat → ℚ) (hx : x + 1 < w) :
    atkStep w h g (y, x) (y, x + 1) = g (y, x + 1) + errQ g (y, x) / 8 := by
  simp only [atkStep, distAtk]
  rw [addIf_ne, addIf_ne, addIf_ne, addIf_ne, addIf_ne, addIf_self _ hx, upd_ne] <;>
    simp only [ne_eq, Prod.mk.injEq, not_and] <;> omega

/-- The Atkinson share of the far-east neighbor `(x+2, y)`. -/
lemma atkStep_e2 (w h y x : Nat) (g : Nat × Nat → ℚ) (hx : x + 2 < w) :
    atkStep w h g (y, x) (y, x + 2) = g (y, x + 2) + errQ g (y, x) / 8 := by
  simp only [atkStep, distAtk]
  rw [addIf_ne, addIf_ne, addIf_ne, addIf_ne, addIf_self _ hx, addIf_ne, upd_ne] <;>
    simp only [ne_eq, Prod.mk.injEq, not_and] <;> omega

/-- The Atkinson share of the south-west neighbor `(x-1, y+1)`. -/
lemma atkStep_sw (w h y x : Nat) (g : Nat × Nat → ℚ) (hy : y + 1 < h) (hx : 1 ≤ x) :
    atkStep w h g (y, x) (y + 1, x - 1) = g (y + 1, x - 1) + errQ g (y, x) / 8 := by
  simp only [atkStep, distAtk]
  rw [addIf_ne, addIf_ne, addIf_ne, addIf_self _ ⟨hy, hx⟩, addIf_ne, addIf_ne, upd_ne] <;>
    simp only [ne_eq, Prod.mk.injEq, not_and] <;> omega

/-- The Atkinson share of the south neighbor `(x, y+1)`. -/
lemma atkStep_s (w h y x : Nat) (g : Nat × Nat → ℚ) (hy : y + 1 < h) (hx : 1 ≤ x) :
    atkStep w h g (y, x) (y + 1, x) = g (y + 1, x) + errQ g (y, x) / 8 := by
  simp only [atkStep, distAtk]
  rw [addIf_ne, addIf_ne, addIf_self _ hy, addIf_ne, addIf_ne, addIf_ne, upd_ne] <;>
    simp only [ne_eq, Prod.mk.injEq, not_and] <;> omega

/-- The Atkinson share of the south-east neighbor `(x+1, y+1)`. -/
lemma atkStep_se (w h y x : Nat) (g : Nat × Nat → ℚ) (hy : y + 1 < h) (hx : x + 1 < w) :
    atkStep w h g (y, x) (y + 1, x + 1) = g (y + 1, x + 1) + errQ g (y, x) / 8 := by
  simp only [atkStep, distAtk]
  rw [addIf_ne, addIf_self _ ⟨hy, hx⟩, addIf_ne, addIf_ne, addIf_ne, addIf_ne, upd_ne] <;>
    simp only [ne_eq, Prod.mk.injEq, not_and] <;> omega

/-- The Atkinson share of the far-south neighbor `(x, y+2)`. -/
lemma atkStep_s2 (w h y x : Nat) (g : Nat × Nat → ℚ) (hy : y + 2 < h) :
    atkStep w h g (y, x) (y + 2, x) = g (y + 2, x) + errQ g (y, x) / 8 := by
  simp only [atkStep, distAtk]
  rw [addIf_self _ hy, addIf_ne, addIf_ne, addIf_ne, addIf_ne, addIf_ne, upd_ne] <;>
    simp only [ne_eq, Prod.mk.injEq, not_and] <;> omega

/-- A step fixes its own pixel to the binarized value. -/
lemma fsStep_self (w h : Nat) (g : Nat × Nat → ℚ) (y x : Nat) :
    fsStep w h g (y, x) (y, x) = binQ (g (y, x)) := by
  simp only [fsStep, distFS]
  rw [addIf_ne, addIf_ne, addIf_ne, addIf_ne, upd_self] <;>
    simp only [ne_eq, Prod.mk.injEq, not_and] <;> omega

/-- A step fixes its own pixel to the binarized value. -/
lemma atkStep_self (w h : Nat) (g : Nat × Nat → ℚ) (y x : Nat) :
    atkStep w h g (y, x) (y, x) = binQ (g (y, x)) := by
  simp only [atkStep, distAtk]
  rw [addIf_ne, addIf_ne, addIf_ne, addIf_ne, addIf_ne, addIf_ne, upd_self] <;>
    simp only [ne_eq, Prod.mk.injEq, not_and] <;> omega

/-- Strict raster order: `p` is visited strictly before `q`. -/
def rLt (p q : Nat × Nat) : Prop := p.1 < q.1 ∨ (p.1 = q.1 ∧ p.2 < q.2)

/-- A Floyd-Steinberg step never writes to a pixel already visited. -/
lemma fsStep_past (w h : Nat) (g : Nat × Nat → ℚ) (y x : Nat) {q : Nat × Nat}
    (hq : rLt q (y, x)) : fsStep w h g (y, x) q = g q := by
  obtain ⟨qy, qx⟩ := q
  simp only [rLt] at hq
  simp only [fsStep, distFS]
  rw [addIf_ne, addIf_ne, addIf_ne, addIf_ne, upd_ne] <;>
    simp only [ne_eq, Prod.mk.injEq, not_and] <;> omega

/-- An Atkinson step never writes to a pixel already visited. -/
lemma atkStep_past (w h : Nat) (g : Nat × Nat → ℚ) (y x : Nat) {q : Nat × Nat}
    (hq : rLt q (y, x)) : atkStep w h g (y, x) q = g q := by
  obtain ⟨qy, qx⟩ := q
  simp only [rLt] at hq
  simp only [atkStep, distAtk]
  rw [addIf_ne, addIf_ne, addIf_ne, addIf_ne, addIf_ne, addIf_ne, upd_ne] <;>
    simp only [ne_eq, Prod.mk.injEq, not_and] <;> omega

/-! ### The raster scan visits every pixel once, in strictly increasing order -/

lemma binQ_cases (v : ℚ) : binQ v = 0 ∨ binQ v = 255 := by
  unfold binQ
  split
  · exact Or.inr rfl
  · exact Or.inl rfl

lemma mem_raster {w h y x : Nat} : (y, x) ∈ raster w h ↔ y < h ∧ x < w := by
  constructor
  · intro hm
    obtain ⟨l, hl, hpl⟩ := List.mem_flatten.mp hm
    obtain ⟨y', hy', rfl⟩ := List.mem_map.mp hl
    obtain ⟨x', hx', he⟩ := List.mem_map.mp hpl
    injection he with h1 h2
    subst h1
    subst h2
    exact ⟨List.mem_range.mp hy', List.mem_range.mp hx'⟩
  · rintro ⟨hy, hx⟩
    refine List.mem_flatten.mpr ⟨(List.range w).map (fun x' => (y, x')), ?_, ?_⟩
    · exact List.mem_map.mpr ⟨y, List.mem_range.mpr hy, rfl⟩
    · exact List.mem_map.mpr ⟨x, List.mem_range.mpr hx, rfl⟩

lemma raster_pairwise (w h : Nat) : (raster w h).Pairwise rLt := by
  refine List.pairwise_flatten.mpr ⟨?_, ?_⟩
  · intro l hl
    obtain ⟨y, _, rfl⟩ := List.mem_map.mp hl
    refine List.pairwise_map.mpr ?_
    refine (List.pairwise_lt_range w).imp ?_
    intro a b hab
    exact Or.inr ⟨rfl, hab⟩
  · refine List.pairwise_map.mpr ?_
    refine (List.pairwise_lt_range h).imp ?_
    intro y1 y2 h12 p hp q hq
    obtain ⟨x1, _, rfl⟩ := List.mem_map.mp hp
    obtain ⟨x2, _, rfl⟩ := List.mem_map.mp hq
    exact Or.inl h12

/-- Folding a step over pixels that are all strictly later than `p` leaves
the value at `p` unchanged. -/
lemma foldl_fix {f : (Nat × Nat → ℚ) → Nat × Nat → Nat × Nat → ℚ} {p : Nat × Nat}
    (hf : ∀ g q, rLt p q → f g q p = g p) :
    ∀ (l : List (Nat × Nat)) (g : Nat × Nat → ℚ),
      (∀ q ∈ l, rLt p q) → l.foldl f g p = g p := by
  intro l
  induction l with
  | nil => intro g _; rfl
  | cons a t ih =>
      intro g hl
      simp only [List.foldl_cons]
      rw [ih (f g a) (fun q hq => hl q (List.mem_cons_of_mem _ hq))]
      exact hf g a (hl a (List.mem_cons_self a t))

/-- Any raster-order error-diffusion pass whose step binarizes its own
pixel and only writes forward leaves every in-bounds pixel at `0` or
`255`. -/
lemma runDither_binary
    (step : Nat → Nat → (Nat × Nat → ℚ) → Nat × Nat → Nat × Nat → ℚ)
    (hself : ∀ w h g p, step w h g p p = binQ (g p))
    (hpast : ∀ w h g p q, rLt q p → step w h g p q = g q)
    (w h : Nat) (g0 : Nat × Nat → ℚ) {y x : Nat} (hy : y < h) (hx : x < w) :
    runDither step w h g0 (y, x) = 0 ∨ runDither step w h g0 (y, x) = 255 := by
  obtain ⟨s, t, heq⟩ := List.append_of_mem (mem_raster.mpr ⟨hy, hx⟩)
  have hpair := raster_pairwise w h
  rw [heq] at hpair
  have ht : ∀ q ∈ t, rLt (y, x) q :=
    (List.pairwise_cons.mp (List.pairwise_append.mp hpair).2.1).1
  unfold runDither
  rw [heq, List.foldl_append, List.foldl_cons,
    foldl_fix (fun g q hq => hpast w h g q (y, x) hq) t _ ht,
    hself]
  exact binQ_cases _

lemma outGrid_mem {w h : Nat} {f : Nat × Nat → ℚ} {row : List Nat} {v : Nat}
    (hrow : row ∈ outGrid w h f) (hv : v ∈ row) :
    ∃ y x, y < h ∧ x < w ∧ v = toU8 (f (y, x)) := by
  obtain ⟨y, hy, rfl⟩ := List.mem_map.mp hrow
  obtain ⟨x, hx, rfl⟩ := List.mem_map.mp hv
  exact ⟨y, x, List.mem_range.mp hy, List.mem_range.mp hx, rfl⟩

lemma toU8_zero : toU8 0 = 0 := by norm_num [toU8, clip, pyInt]

lemma toU8_255 : toU8 255 = 255 := by
  norm_num [toU8, clip, pyInt]
  rfl

/-! ### Index computation with the empty ramp -/

lemma char_index_len_zero (v : ℚ) : char_index v 0 = -1 := by
  simp [char_index, pyInt]

lemma pyStrGet_nil_neg_one : pyStrGet [] (-1) = .error .indexError := by decide

lemma pixels_to_ascii_cons_nil (p : Nat) (rest : List Nat) :
    pixels_to_ascii (p :: rest) [] = .error .indexError := by
  simp only [pixels_to_ascii, List.mapM_cons]
  have hf : pyStrGet ([] : List Char)
      (char_index (p : ℚ) ([] : List Char).length) = .error .indexError := by
    rw [List.length_nil, char_index_len_zero]
    exact pyStrGet_nil_neg_one
  rw [hf]
  rfl

lemma rangeStep2_pos (n : Nat) (hn : 0 < n) : ∃ l, rangeStep2 n = 0 :: l := by
  cases n with
  | zero => omega
  | succ k =>
      refine ⟨((List.range k).map Nat.succ).filter (fun i => i % 2 == 0), ?_⟩
      rw [rangeStep2, List.range_succ_eq_map, List.filter_cons]
      norm_num

lemma pattern_cons_nil (grid : List (List Nat)) (hh : 0 < grid.length)
    (hw : 0 < (grid.headD []).length) :
    pixels_to_ascii_pattern grid [] = .error .indexError := by
  obtain ⟨ly, hy⟩ := rangeStep2_pos _ hh
  obtain ⟨lx, hx⟩ := rangeStep2_pos _ hw
  simp only [pixels_to_ascii_pattern]
  rw [hy, List.mapM_cons, hx, List.mapM_cons]
  have hf : pyStrGet ([] : List Char)
      (char_index
        (blockMean grid 0 0 (min 2 (grid.length - 0))
          (min 2 ((grid.headD []).length - 0)))
        ([] : List Char).length) = .error .indexError := by
    rw [List.length_nil, char_index_len_zero]
    exact pyStrGet_nil_neg_one
  rw [hf]
  rfl

/-! ### The claims -/

/-- C1, counterexample: with ramp `" .:-=+*#%@"` the solid black (all
intensities 0) 10x10 grid does NOT render as all `'@'` — intensity 0
selects index 0, i.e. the space character. -/
theorem c1_black_not_all_at :
    render_ascii 10 (List.replicate 10 (List.replicate 10 0)) ascii_chars_default
      ≠ Except.ok (List.replicate 10 (List.replicate 10 '@')) := by
  with_unfolding_all decide

/-- C1, amended: the solid black 10x10 grid renders entirely as `' '` and
the solid white one entirely as `'@'` — the specification has the two
glyphs swapped. -/
theorem c1_black_white_render :
    render_ascii 10 (List.replicate 10 (List.replicate 10 0)) ascii_chars_default
      = Except.ok (List.replicate 10 (List.replicate 10 ' ')) ∧
    render_ascii 10 (List.replicate 10 (List.replicate 10 255)) ascii_chars_default
      = Except.ok (List.replicate 10 (List.replicate 10 '@')) := by
  constructor <;> with_unfolding_all decide

/-- C2, counterexample: resizing a 200x100 source to `newWidth = 100` does
not give height `round(100 * 0.5 * 0.55) = 28`: the source truncates with
`int(...)` and produces 27. -/
theorem c2_resize_not_round :
    resize_image 200 100 100 ≠ Except.ok ((100 : Int), (28 : Int)) := by
  with_unfolding_all decide

/-- C2, amended: for every source of width `w > 0` and height `h` and
every `newWidth > 0`, the produced height is the truncation
`int(newWidth * (h/w) * 0.55) = ⌊newWidth * h * 11 / (w * 20)⌋`, not the
rounding; at 200x100 → 100 this yields 27, not 28. -/
theorem c2_resize_height_floor (w h : Nat) (nw : Int) (hw : 0 < w) (hnw : 0 < nw) :
    resize_image w h nw
      = Except.ok (nw, ⌊((nw : ℚ) * (h : ℚ) * 11) / ((w : ℚ) * 20)⌋) := by
  unfold resize_image
  rw [if_neg (by omega)]
  have hw' : (0 : ℚ) < (w : ℚ) := by exact_mod_cast hw
  have hnw' : (0 : ℚ) ≤ (nw : ℚ) := by exact_mod_cast hnw.le
  have hq : (0 : ℚ) ≤ (h : ℚ) / (w : ℚ) * (nw : ℚ) * (55 / 100) := by
    apply mul_nonneg (mul_nonneg (div_nonneg (Nat.cast_nonneg h) hw'.le) hnw')
    norm_num
  have harg : (h : ℚ) / (w : ℚ) * (nw : ℚ) * (55 / 100)
      = ((nw : ℚ) * (h : ℚ) * 11) / ((w : ℚ) * 20) := by
    field_simp
    ring
  simp only [pyInt, harg]
  rw [if_pos (harg ▸ hq)]

/-- C2, witness: the amended height formula evaluated on the spec's own
example source. -/
theorem c2_resize_height_floor_w :
    resize_image 200 100 100 = Except.ok ((100 : Int), (27 : Int)) := by
  have h := c2_resize_height_floor 200 100 100 (by omega) (by omega)
  rw [h]
  with_unfolding_all decide

/-- C3: with all neighbors in bounds, one Floyd-Steinberg step hands
`error * 7/16`, `3/16`, `5/16`, `1/16` to its four forward neighbors — in
total the full error (`16/16`) — and one Atkinson step hands exactly
`error / 8` to each of its six forward neighbors, in total `6/8` of the
error, so `2/8` is discarded. -/
theorem c3_error_shares (w h y x : Nat) (g : Nat × Nat → ℚ)
    (hx1 : 1 ≤ x) (hx2 : x + 2 < w) (hy2 : y + 2 < h) :
    fsStep w h g (y, x) (y, x + 1) = g (y, x + 1) + errQ g (y, x) * 7 / 16 ∧
    fsStep w h g (y, x) (y + 1, x - 1) = g (y + 1, x - 1) + errQ g (y, x) * 3 / 16 ∧
    fsStep w h g (y, x) (y + 1, x) = g (y + 1, x) + errQ g (y, x) * 5 / 16 ∧
    fsStep w h g (y, x) (y + 1, x + 1) = g (y + 1, x + 1) + errQ g (y, x) * 1 / 16 ∧
    (fsStep w h g (y, x) (y, x + 1) - g (y, x + 1)) +
        (fsStep w h g (y, x) (y + 1, x - 1) - g (y + 1, x - 1)) +
        (fsStep w h g (y, x) (y + 1, x) - g (y + 1, x)) +
        (fsStep w h g (y, x) (y + 1, x + 1) - g (y + 1, x + 1))
      = 16 / 16 * errQ g (y, x) ∧
    atkStep w h g (y, x) (y, x + 1) = g (y, x + 1) + errQ g (y, x) / 8 ∧
    atkStep w h g (y, x) (y, x + 2) = g (y, x + 2) + errQ g (y, x) / 8 ∧
    atkStep w h g (y, x) (y + 1, x - 1) = g (y + 1, x - 1) + errQ g (y, x) / 8 ∧
    atkStep w h g (y, x) (y + 1, x) = g (y + 1, x) + errQ g (y, x) / 8 ∧
    atkStep w h g (y, x) (y + 1, x + 1) = g (y + 1, x + 1) + errQ g (y, x) / 8 ∧
    atkStep w h g (y, x) (y + 2, x) = g (y + 2, x) + errQ g (y, x) / 8 ∧
    (atkStep w h g (y, x) (y, x + 1) - g (y, x + 1)) +
        (atkStep w h g (y, x) (y, x + 2) - g (y, x + 2)) +
        (atkStep w h g (y, x) (y + 1, x - 1) - g (y + 1, x - 1)) +
        (atkStep w h g (y, x) (y + 1, x) - g (y + 1, x)) +
        (atkStep w h g (y, x) (y + 1, x + 1) - g (y + 1, x + 1)) +
        (atkStep w h g (y, x) (y + 2, x) - g (y + 2, x))
      = 6 / 8 * errQ g (y, x) := by
  have hx1w : x + 1 < w := by omega
  have hy1 : y + 1 < h := by omega
  have e1 := fsStep_e w h y x g hx1w
  have e2 := fsStep_sw w h y x g hy1 hx1
  have e3 := fsStep_s w h y x g hy1 hx1
  have e4 := fsStep_se w h y x g hy1 hx1w
  have a1 := atkStep_e w h y x g hx1w
  have a2 := atkStep_e2 w h y x g hx2
  have a3 := atkStep_sw w h y x g hy1 hx1
  have a4 := atkStep_s w h y x g hy1 hx1
  have a5 := atkStep_se w h y x g hy1 hx1w
  have a6 := atkStep_s2 w h y x g hy2
  refine ⟨e1, e2, e3, e4, ?_, a1, a2, a3, a4, a5, a6, ?_⟩
  · rw [e1, e2, e3, e4]; ring
  · rw [a1, a2, a3, a4, a5, a6]; ring

/-- A constant working buffer used to instantiate the error-share claim. -/
def constG : Nat × Nat → ℚ := fun _ => 200

/-- C3, witness: the shares evaluated at pixel (1,1) of a 4x4 buffer. -/
theorem c3_error_shares_w :
    1 ≤ 1 ∧ 1 + 2 < 4 ∧ 1 + 2 < 4 ∧
    (fsStep 4 4 constG (1, 1) (1, 2) = constG (1, 2) + errQ constG (1, 1) * 7 / 16 ∧
     fsStep 4 4 constG (1, 1) (2, 0) = constG (2, 0) + errQ constG (1, 1) * 3 / 16 ∧
     fsStep 4 4 constG (1, 1) (2, 1) = constG (2, 1) + errQ constG (1, 1) * 5 / 16 ∧
     fsStep 4 4 constG (1, 1) (2, 2) = constG (2, 2) + errQ constG (1, 1) * 1 / 16 ∧
     (fsStep 4 4 constG (1, 1) (1, 2) - constG (1, 2)) +
         (fsStep 4 4 constG (1, 1) (2, 0) - constG (2, 0)) +
         (fsStep 4 4 constG (1, 1) (2, 1) - constG (2, 1)) +
         (fsStep 4 4 constG (1, 1) (2, 2) - constG (2, 2))
       = 16 / 16 * errQ constG (1, 1) ∧
     atkStep 4 4 constG (1, 1) (1, 2) = constG (1, 2) + errQ constG (1, 1) / 8 ∧
     atkStep 4 4 constG (1, 1) (1, 3) = constG (1, 3) + errQ constG (1, 1) / 8 ∧
     atkStep 4 4 constG (1, 1) (2, 0) = constG (2, 0) + errQ constG (1, 1) / 8 ∧
     atkStep 4 4 constG (1, 1) (2, 1) = constG (2, 1) + errQ constG (1, 1) / 8 ∧
     atkStep 4 4 constG (1, 1) (2, 2) = constG (2, 2) + errQ constG (1, 1) / 8 ∧
     atkStep 4 4 constG (1, 1) (3, 1) = constG (3, 1) + errQ constG (1, 1) / 8 ∧
     (atkStep 4 4 constG (1, 1) (1, 2) - constG (1, 2)) +
         (atkStep 4 4 constG (1, 1) (1, 3) - constG (1, 3)) +
         (atkStep 4 4 constG (1, 1) (2, 0) - constG (2, 0)) +
         (atkStep 4 4 constG (1, 1) (2, 1) - constG (2, 1)) +
         (atkStep 4 4 constG (1, 1) (2, 2) - constG (2, 2)) +
         (atkStep 4 4 constG (1, 1) (3, 1) - constG (3, 1))
       = 6 / 8 * errQ constG (1, 1)) :=
  ⟨by omega, by omega, by omega,
    c3_error_shares 4 4 1 1 constG (by omega) (by omega) (by omega)⟩

/-- C4: for a non-empty ramp of length `L` and every intensity in
`[0, 255]`, the per-pixel index `min(int(v * L / 256), L - 1)` lies within
`[0, L - 1]`, so the glyph lookup never leaves the ramp. -/
theorem c4_char_index_in_range (v : ℚ) (L : Nat) (hL : 0 < L)
    (h0 : 0 ≤ v) (h255 : v ≤ 255) :
    0 ≤ char_index v L ∧ char_index v L ≤ (L : Int) - 1 := by
  have hq : (0 : ℚ) ≤ v * (L : ℚ) / 256 :=
    div_nonneg (mul_nonneg h0 (Nat.cast_nonneg L)) (by norm_num)
  refine ⟨?_, min_le_right _ _⟩
  rw [char_index]
  apply le_min
  · rw [pyInt, if_pos hq]
    exact Int.floor_nonneg.mpr hq
  · omega

/-- C4, witness: intensity 200 with the 10-glyph ramp. -/
theorem c4_char_index_in_range_w :
    0 < 10 ∧ (0 : ℚ) ≤ 200 ∧ (200 : ℚ) ≤ 255 ∧
      (0 ≤ char_index 200 10 ∧ char_index 200 10 ≤ (10 : Int) - 1) :=
  ⟨by omega, by norm_num, by norm_num,
    c4_char_index_in_range 200 10 (by omega) (by norm_num) (by norm_num)⟩

/-- C5, counterexample: per-pixel mapping of a one-pixel grid with the
zero-length ramp does not fail with the distinct `EmptyRamp` error — it
fails with the generic IndexError (`ascii_chars[-1]` on an empty string). -/
theorem c5_empty_ramp_not_emptyramp :
    pixels_to_ascii [0] [] ≠ Except.error PyErr.emptyRamp ∧
    pixels_to_ascii [0] [] = Except.error PyErr.indexError := by
  constructor <;> with_unfolding_all decide

/-- C5, amended: with a zero-length ramp the computed index is `-1`, so
per-pixel mapping of any non-empty pixel list and pattern mapping of any
grid with at least one pixel fail with the generic IndexError; no
distinct `EmptyRamp` error exists in the source (and empty input returns
an empty result rather than failing). -/
theorem c5_empty_ramp_index_error (pixels : List Nat) (grid : List (List Nat)) :
    (pixels ≠ [] → pixels_to_ascii pixels [] = Except.error PyErr.indexError) ∧
    (0 < grid.length → 0 < (grid.headD []).length →
      pixels_to_ascii_pattern grid [] = Except.error PyErr.indexError) := by
  constructor
  · intro hne
    cases pixels with
    | nil => exact absurd rfl hne
    | cons p rest => exact pixels_to_ascii_cons_nil p rest
  · intro hh hw
    exact pattern_cons_nil grid hh hw

/-- C5, witness: both mapping strategies on a one-pixel grid. -/
theorem c5_empty_ramp_index_error_w :
    pixels_to_ascii [5] [] = Except.error PyErr.indexError ∧
    pixels_to_ascii_pattern [[5]] [] = Except.error PyErr.indexError :=
  ⟨(c5_empty_ramp_index_error [5] [[5]]).1 (by decide),
   (c5_empty_ramp_index_error [5] [[5]]).2 (by decide) (by decide)⟩

/-- C6: pattern-mode block mapping of the uniform 4x4 grid of intensity
128 with the 10-glyph default ramp yields the 2x2 character grid whose
every cell is `ramp[5] = '+'`. -/
theorem c6_pattern_uniform_128 :
    pixels_to_ascii_pattern (List.replicate 4 (List.replicate 4 128))
        ascii_chars_default
      = Except.ok [['+', '+'], ['+', '+']] := by
  with_unfolding_all decide

/-- C7: a pixel whose EdgeMask entry is false classifies as `none`,
regardless of the eight neighboring mask cells (spec-modelled: the source
contains no edge-classification code). -/
theorem c7_edge_none_of_unmasked (mask : List (List Bool)) (x y : Int)
    (h : maskAt mask x y = false) :
    determine_edge_direction mask x y = none := by
  rw [determine_edge_direction, if_pos h]

/-- C7, witness: the center of a 3x3 mask that is true everywhere except
at the center itself. -/
theorem c7_edge_none_of_unmasked_w :
    maskAt [[true, true, true], [true, false, true], [true, true, true]] 1 1
        = false ∧
      determine_edge_direction
          [[true, true, true], [true, false, true], [true, true, true]] 1 1
        = none :=
  ⟨by decide, c7_edge_none_of_unmasked _ 1 1 (by decide)⟩

/-- C8, counterexample: `resize_image` invoked with `newWidth = 0` on a
200x100 source does not fail with the distinct `InvalidDimension` error —
the source performs no validation and calls the external resize with a
0x0 target. -/
theorem c8_resize_no_invalid_dimension_at_zero :
    resize_image 200 100 0 ≠ Except.error PyErr.invalidDimension := by
  with_unfolding_all decide

/-- C8, amended: for every source with `w > 0` and every `newWidth ≤ 0`,
`resize_image` never fails with `InvalidDimension`: it computes the
(non-positive) target size and hands it to the external resize. -/
theorem c8_resize_never_invalid_dimension (w h : Nat) (nw : Int)
    (hw : 0 < w) (hnw : nw ≤ 0) :
    resize_image w h nw ≠ Except.error PyErr.invalidDimension := by
  unfold resize_image
  rw [if_neg (by omega)]
  intro hcontra
  exact Except.noConfusion hcontra

/-- C8, witness: a negative width on a 100x50 source. -/
theorem c8_resize_never_invalid_dimension_w :
    resize_image 100 50 (-3) ≠ Except.error PyErr.invalidDimension :=
  c8_resize_never_invalid_dimension 100 50 (-3) (by omega) (by omega)

/-- C9: every pixel of a Floyd-Steinberg- or Atkinson-dithered grid is
exactly 0 or 255 — each pixel is fixed to its binarized value when
visited, and error is only ever added at strictly later raster
positions. -/
theorem c9_dither_binarizes (grid : List (List Nat)) (m : Method)
    (hm : m = Method.floydSteinberg ∨ m = Method.atkinson)
    (row : List Nat) (v : Nat)
    (hrow : row ∈ apply_dithering grid m) (hv : v ∈ row) :
    v = 0 ∨ v = 255 := by
  rcases hm with rfl | rfl
  · simp only [apply_dithering] at hrow
    obtain ⟨y, x, hy, hx, rfl⟩ := outGrid_mem hrow hv
    rcases runDither_binary fsStep
        (fun w h g p => by
          obtain ⟨py, px⟩ := p
          exact fsStep_self w h g py px)
        (fun w h g p q hq => by
          obtain ⟨py, px⟩ := p
          exact fsStep_past w h g py px hq)
        (gridW grid) (gridH grid) (gridFun grid) hy hx with hb | hb
    · exact Or.inl (by rw [hb, toU8_zero])
    · exact Or.inr (by rw [hb, toU8_255])
  · simp only [apply_dithering] at hrow
    obtain ⟨y, x, hy, hx, rfl⟩ := outGrid_mem hrow hv
    rcases runDither_binary atkStep
        (fun w h g p => by
          obtain ⟨py, px⟩ := p
          exact atkStep_self w h g py px)
        (fun w h g p q hq => by
          obtain ⟨py, px⟩ := p
          exact atkStep_past w h g py px hq)
        (gridW grid) (gridH grid) (gridFun grid) hy hx with hb | hb
    · exact Or.inl (by rw [hb, toU8_zero])
    · exact Or.inr (by rw [hb, toU8_255])

/-- C9, witness: the one-pixel grid of intensity 200 dithers to 255. -/
theorem c9_dither_binarizes_w :
    (Method.floydSteinberg = Method.floydSteinberg ∨
        Method.floydSteinberg = Method.atkinson) ∧
    [255] ∈ apply_dithering [[200]] Method.floydSteinberg ∧
    (255 : Nat) ∈ ([255] : List Nat) ∧
    ((255 : Nat) = 0 ∨ (255 : Nat) = 255) :=
  ⟨Or.inl rfl, by with_unfolding_all decide, by decide,
    c9_dither_binarizes [[200]] Method.floydSteinberg (Or.inl rfl) [255] 255
      (by with_unfolding_all decide) (by decide)⟩

/-- C10: resizing a 100x1 source to `newWidth = 10` yields height
`int(0.01 * 10 * 0.55) = 0`, and rendering the resulting empty 10x0 grid
produces an empty character grid rather than an error. -/
theorem c10_zero_height_empty_render :
    resize_image 100 1 10 = Except.ok ((10 : Int), (0 : Int)) ∧
    render_ascii 10 [] ascii_chars_default = Except.ok [] := by
  constructor <;> with_unfolding_all decide

end AsciiArt
